import Mathlib

/-!
# iotThermostat: the polling loop and its HTTP contract

A shallow embedding of `src/thermostat/thermostat.c`.

* Bytes are `Fin 256`; a heap block is the list of its bytes; a `char *` is
  `CharPtr` (NULL, a heap block, or an integer error code cast to a pointer).
* What the C library and libcurl do is an input: whether `curl_easy_init`
  gives a handle, the blocks a transfer hands to the write callback, whether
  each `realloc` succeeds, whether the transfer ends with `CURLE_OK`, and
  what `fopen` finds.
* A call that the C standard leaves undefined (reading through NULL or through
  an error code cast to a pointer, `fseek` on a NULL stream) ends the run in
  `Res.fault`.
* The constants of `thermostat.h` (error codes, endpoint URLs) are not part of
  the sources; they are the fields of `Config`.
-/

namespace Thermostat

/-! ## Bytes, C strings and pointers -/

/-- One `char`. -/
abbrev Byte := Fin 256

/-- Number of values of a `size_t` (64-bit target). -/
def SIZE_MOD : Nat := 2 ^ 64

/-- The bytes of the literal "true". -/
def lit_true : List Byte := [116, 114, 117, 101]

/-- The bytes of the literal "ON". -/
def lit_ON : List Byte := [79, 78]

/-- The bytes of the literal "OFF". -/
def lit_OFF : List Byte := [79, 70, 70]

/-- A block that holds the C string `s`: its bytes and the terminating 0. -/
def cblock (s : List Byte) : List Byte := s ++ [0]

/-- The C string stored at the start of a block: the bytes before the first 0.
`none` when the block holds no 0 byte (a read would run past its end). -/
def cstr (block : List Byte) : Option (List Byte) :=
  if (0 : Byte) ∈ block then some (block.takeWhile (fun b => b != 0)) else none

/-- A value of type `char *`. -/
inductive CharPtr where
  /-- The pointer NULL. -/
  | null
  /-- A pointer to the first byte of a live block with these bytes. -/
  | heap (block : List Byte)
  /-- An integer error code cast to a pointer, as in `(char *) REQ_ERR`. -/
  | code (n : Int)
deriving DecidableEq, Repr

/-- The pointer stored in `chunk.response`. -/
def CharPtr.ofResponse : Option (List Byte) → CharPtr
  | none => CharPtr.null
  | some b => CharPtr.heap b

/-- The test `strcmp(p, lit) == 0`: defined only when `p` points to a
0-terminated block; `none` stands for undefined behaviour. -/
def strcmpEq (p : CharPtr) (lit : List Byte) : Option Bool :=
  match p with
  | CharPtr.heap block => (cstr block).map (fun s => decide (s = lit))
  | _ => none

/-! ## The response buffer and the write callback (lines 90-109) -/

/-- The struct CurlBuffer: `response` is the heap block (`none` is NULL),
`size` the number of body bytes stored. -/
structure CurlBuffer where
  response : Option (List Byte)
  size : Nat
deriving DecidableEq, Repr

/-- The initial value of the global `chunk`, written `{0}` in the source. -/
def CurlBuffer.empty : CurlBuffer := ⟨none, 0⟩

/-- The first `size` bytes of the block: the body bytes received so far. -/
def CurlBuffer.contents (buf : CurlBuffer) : List Byte :=
  (buf.response.getD []).take buf.size

/-- A successful `realloc(old, n)`: a block of `n` bytes that keeps the old
bytes (up to `n`); the bytes beyond them are not initialised, here `fill`. -/
def realloc (fill : Byte) (old : Option (List Byte)) (n : Nat) : List Byte :=
  let kept := (old.getD []).take n
  kept ++ List.replicate (n - kept.length) fill

/-- The call `memcpy(&block[off], data, k)`. -/
def memcpy (block : List Byte) (off : Nat) (data : List Byte) (k : Nat) : List Byte :=
  block.take off ++ data.take k ++ block.drop (off + k)

/-- The function `call_back` (lines 90-107). `reallocOk` says whether
`realloc` returns a block; the result is the returned count and the buffer.
The `size_t` sums wrap at `SIZE_MOD`; when one wraps the C code writes outside
the block, and the list operations below no longer describe it. -/
def call_back (fill : Byte) (reallocOk : Bool) (data : List Byte) (size nmemb : Nat)
    (buf : CurlBuffer) : Nat × CurlBuffer :=
  let realsize := (size * nmemb) % SIZE_MOD
  if reallocOk = false then
    (0, buf)
  else
    let ptr := realloc fill buf.response ((buf.size + realsize + 1) % SIZE_MOD)
    let copied := memcpy ptr buf.size data realsize
    let newSize := (buf.size + realsize) % SIZE_MOD
    (realsize, ⟨some (copied.set newSize 0), newSize⟩)

/-- One block handed to the write callback, and whether the `realloc` inside
that call succeeds. -/
structure Delivery where
  data : List Byte
  reallocOk : Bool
deriving DecidableEq, Repr

/-- The write phase of a transfer: libcurl calls the callback once per block,
with `size = 1` and `nmemb` the block length, and aborts the transfer as soon
as the callback returns a count other than the one it was given. The result
says whether every block was accepted. -/
def deliver (fill : Byte) : List Delivery → CurlBuffer → Bool × CurlBuffer
  | [], buf => (true, buf)
  | d :: rest, buf =>
    let r := call_back fill d.reallocOk d.data 1 d.data.length buf
    if r.1 = 1 * d.data.length then deliver fill rest r.2 else (false, r.2)

/-- The buffer holds exactly the body bytes `c`: they are the first `size`
bytes of the block, and `size` is their number. -/
def Holds (buf : CurlBuffer) (c : List Byte) : Prop :=
  buf.contents = c ∧ buf.size = c.length

instance (buf : CurlBuffer) (c : List Byte) : Decidable (Holds buf c) :=
  inferInstanceAs (Decidable (buf.contents = c ∧ buf.size = c.length))

/-- The bytes of a list of deliveries, in order: the response body. -/
def bodyOf (blocks : List Delivery) : List Byte :=
  (blocks.map (fun d => d.data)).flatten

/-- Whether every `realloc` of the deliveries succeeds. -/
def allAccepted (blocks : List Delivery) : Bool :=
  blocks.all (fun d => d.reallocOk)

/-- Whether the `realloc` of at least one delivery succeeds. -/
def someAccepted (blocks : List Delivery) : Bool :=
  blocks.any (fun d => d.reallocOk)

/-! ## Constants of thermostat.h, requests, program state -/

/-- The constants that `thermostat.h` defines and the sources use: the error
codes and the two endpoint URLs. The header is not part of the sources, so
their values are parameters. -/
structure Config where
  OK : Int
  NO_FORK : Int
  NO_SETSID : Int
  REQ_ERR : Int
  NO_FILE : Int
  INIT_ERR : Int
  ERR_CHDIR : Int
  WEIRD_EXIT : Int
  UNKNOWN_HEATER_STATE : Int
  MEAS_TBL_URL : List Byte
  STATUS_TBL_URL : List Byte
deriving DecidableEq, Repr

/-- What the `curl_easy_setopt` calls of `doCurlAction` put on the handle. -/
structure Request where
  /-- The option CURLOPT_URL (`none` is NULL). -/
  url : Option (List Byte)
  /-- The option CURLOPT_CUSTOMREQUEST. -/
  verb : String
  /-- Whether CURLOPT_WRITEFUNCTION is `call_back` and CURLOPT_WRITEDATA is
  `&chunk`; otherwise the body goes to the cache file. -/
  accumulate : Bool
  /-- The pointer given to CURLOPT_POSTFIELDS, when that option is set. -/
  postfields : Option CharPtr
  /-- Whether CURLOPT_FOLLOWLOCATION is set to 1. -/
  followLocation : Bool
deriving DecidableEq, Repr

/-- What libcurl and the allocator do during one call of `doCurlAction`. -/
structure CurlEnv where
  /-- Whether `curl_easy_init` returns a handle. -/
  initOk : Bool
  /-- The value of the bytes a `realloc` leaves uninitialised. -/
  fill : Byte
  /-- The body blocks the transfer hands to the write callback, in order. -/
  blocks : List Delivery
  /-- Whether the transfer itself ends without a transport error. -/
  transferOk : Bool
deriving DecidableEq, Repr

/-- The observable steps of a run, in the order they happen. -/
inductive Event where
  /-- The call `fopen(TEMP_PATH, "r")` of `publishMeasurement`. -/
  | sensorOpen
  /-- A `curl_easy_perform` on a handle configured as `r`. -/
  | request (r : Request)
  /-- A call `setHeater(arg)`. -/
  | heater (arg : List Byte)
deriving DecidableEq, Repr

/-- The mutable state: the global `chunk`, the contents of the actuator file
STAT_PATH (`none` when it does not exist), and the steps so far. -/
structure State where
  chunk : CurlBuffer
  sink : Option (List Byte)
  trace : List Event
deriving DecidableEq, Repr

/-- How a piece of the program ends. -/
inductive Res (α : Type) where
  /-- It returns `a`. -/
  | ret (a : α) (s : State)
  /-- It reaches undefined behaviour (an invalid pointer is read). -/
  | fault (s : State)
  /-- The process ends through `exit(code)` or a return from `main`. -/
  | exited (code : Int) (s : State)
  /-- It is still inside `while (1)` after the cycles that were supplied. -/
  | looping (s : State)
deriving DecidableEq, Repr

/-- Sequencing: continue with `f` when the first part returns. -/
def Res.bind {α β : Type} (r : Res α) (f : α → State → Res β) : Res β :=
  match r with
  | Res.ret a s => f a s
  | Res.fault s => Res.fault s
  | Res.exited c s => Res.exited c s
  | Res.looping s => Res.looping s

/-- The state in which a run ended or was last observed. -/
def Res.state {α : Type} : Res α → State
  | Res.ret _ s => s
  | Res.fault s => s
  | Res.exited _ s => s
  | Res.looping s => s

/-- The requests among the steps. -/
def requestsOf : List Event → List Request
  | [] => []
  | Event.request r :: es => r :: requestsOf es
  | _ :: es => requestsOf es

/-- The arguments of the `setHeater` calls among the steps. -/
def heaterCallsOf : List Event → List (List Byte)
  | [] => []
  | Event.heater a :: es => a :: heaterCallsOf es
  | _ :: es => heaterCallsOf es

/-- The number of openings of the temperature source among the steps. -/
def sensorOpensOf : List Event → Nat
  | [] => 0
  | Event.sensorOpen :: es => sensorOpensOf es + 1
  | _ :: es => sensorOpensOf es

/-! ## doCurlAction (lines 114-152) -/

/-- The call `curl_easy_perform`: with the accumulation callback installed the
body blocks go through `call_back` into `chunk`; otherwise `chunk` is not
touched. The result says whether the call returned `CURLE_OK`. -/
def curl_easy_perform (env : CurlEnv) (req : Request) (chunk : CurlBuffer) :
    Bool × CurlBuffer :=
  if req.accumulate then
    let r := deliver env.fill env.blocks chunk
    (r.1 && env.transferOk, r.2)
  else
    (env.transferOk, chunk)

/-- The handle after the `curl_easy_setopt` calls of lines 121-138: the
callback is installed when `strcmp(type, "GET") == 0`; CURLOPT_POSTFIELDS is
set when `hasVerb`, CURLOPT_FOLLOWLOCATION otherwise. -/
def configure (url : Option (List Byte)) (message : CharPtr) (type : String)
    (hasVerb : Bool) : Request :=
  ⟨url, type, decide (type = "GET"),
    if hasVerb then some message else none,
    if hasVerb then false else true⟩

/-- The function `doCurlAction` (lines 114-152). -/
def doCurlAction (cfg : Config) (env : CurlEnv) (url : Option (List Byte))
    (message : CharPtr) (type : String) (hasVerb : Bool) (s : State) : CharPtr × State :=
  if env.initOk then
    let req : Request := configure url message type hasVerb
    let r := curl_easy_perform env req s.chunk
    let s1 : State := ⟨r.2, s.sink, s.trace ++ [Event.request req]⟩
    if r.1 = false then
      (CharPtr.code cfg.REQ_ERR, s1)
    else
      (CharPtr.ofResponse s1.chunk.response, s1)
  else
    (CharPtr.code cfg.INIT_ERR, s)

/-! ## The control loop (lines 248-304, 386-404) -/

/-- The function `publishMeasurement` (lines 248-262). `sensor` is what
`fopen(TEMP_PATH, "r")` finds: the bytes of the file, or `none` when the file
cannot be opened; then `fp` is NULL and `fseek(fp, ...)` is undefined. -/
def publishMeasurement (cfg : Config) (sensor : Option (List Byte)) (env : CurlEnv)
    (s : State) : Res Unit :=
  let s1 : State := ⟨s.chunk, s.sink, s.trace ++ [Event.sensorOpen]⟩
  match sensor with
  | none => Res.fault s1
  | some text =>
    let buffer := text ++ [0]
    let r := doCurlAction cfg env (some cfg.MEAS_TBL_URL) (CharPtr.heap buffer) "POST" true s1
    Res.ret () r.2

/-- The function `setHeater` (lines 267-278). `opens` says whether
`fopen(STAT_PATH, "w")` succeeds; `state` is the C string to write. -/
def setHeater (cfg : Config) (opens : Bool) (state : List Byte) (s : State) : Int × State :=
  let s1 : State := ⟨s.chunk, s.sink, s.trace ++ [Event.heater state]⟩
  if opens = false then
    (cfg.UNKNOWN_HEATER_STATE, s1)
  else
    (cfg.OK, ⟨s1.chunk, some state, s1.trace⟩)

/-- The function `requestStatus` (lines 283-304). The pointer that
`doCurlAction` returns goes to `strcmp` unchecked. -/
def requestStatus (cfg : Config) (env : CurlEnv) (sinkOpens : Bool) (s : State) : Res Unit :=
  let r := doCurlAction cfg env (some cfg.STATUS_TBL_URL) CharPtr.null "GET" false s
  match strcmpEq r.1 lit_true with
  | none => Res.fault r.2
  | some same =>
    let h := if same then setHeater cfg sinkOpens lit_ON r.2
             else setHeater cfg sinkOpens lit_OFF r.2
    Res.ret () ⟨⟨none, 0⟩, h.2.sink, h.2.trace⟩

/-- What the environment does during one cycle of the loop. -/
structure CycleInput where
  /-- The temperature file at the `fopen` of this cycle. -/
  sensor : Option (List Byte)
  /-- The environment of the publish request. -/
  post : CurlEnv
  /-- The environment of the status request. -/
  get : CurlEnv
  /-- Whether `fopen(STAT_PATH, "w")` succeeds in this cycle. -/
  sinkOpens : Bool
deriving DecidableEq, Repr

/-- The body of `while (1)` in `execute` (lines 392-399), one pass per
supplied cycle. The loop has no exit; when the supplied cycles are used up the
run is `looping`. -/
def controlLoop (cfg : Config) : List CycleInput → State → Res Int
  | [], s => Res.looping s
  | c :: rest, s =>
    (publishMeasurement cfg c.sensor c.post s).bind fun _ s1 =>
      (requestStatus cfg c.get c.sinkOpens s1).bind fun _ s2 =>
        controlLoop cfg rest s2

/-- The function `execute` (lines 386-404). `tempExists` is
`file_exists(TEMP_PATH)`; `file_exists(STAT_PATH)` is read off the state. -/
def execute (cfg : Config) (tempExists : Bool) (cycles : List CycleInput) (s : State) :
    Res Int :=
  if tempExists && s.sink.isSome then
    controlLoop cfg cycles s
  else
    Res.ret cfg.NO_FILE s

/-! ## The argp parser (lines 155-236) -/

/-- The struct Arguments that `main` fills in (lines 417-423). The strings
are given by their bytes before the terminating 0. -/
structure Arguments where
  url : Option (List Byte)
  arg : Option (List Byte)
  post : Bool
  get : Bool
  put : Bool
  delete : Bool
deriving DecidableEq, Repr

/-- The keys the parser is called with. `other` stands for every key without
a case of its own (ARGP_KEY_INIT, ARGP_KEY_ERROR, ARGP_KEY_FINI, ...). -/
inductive Key where
  | u
  | o
  | g
  | p
  | d
  | ARGP_KEY_NO_ARGS
  | ARGP_KEY_ARG
  | ARGP_KEY_END
  | ARGP_KEY_SUCCESS
  | other
deriving DecidableEq, Repr

/-- The value ARGP_ERR_UNKNOWN of glibc (E2BIG). -/
def ARGP_ERR_UNKNOWN : Int := 7

/-- The global `argp_err_exit_status` of glibc (EX_USAGE). -/
def argp_err_exit_status : Int := 64

/-- What one call of the parser yields: the returned `error_t`, whether
`argp_usage(state)` was called before the return statement, the argument
struct and the program state afterwards. -/
structure ParserResult where
  value : Int
  usage : Bool
  args : Arguments
  state : State
deriving DecidableEq, Repr

/-- The pointer passed as `message` for a positional argument. -/
def CharPtr.ofArg : Option (List Byte) → CharPtr
  | none => CharPtr.null
  | some a => CharPtr.heap (cblock a)

/-- The function `parser` (lines 155-236). `arg` is the argument of the key,
`arg_num` is `state->arg_num`, `a` is `state->input`, and `env` is the
environment of the request made under ARGP_KEY_SUCCESS. -/
def parser (cfg : Config) (env : CurlEnv) (key : Key) (arg : Option (List Byte))
    (arg_num : Nat) (a : Arguments) (s : State) : ParserResult :=
  match key with
  | Key.u => ⟨cfg.OK, false, ⟨arg, a.arg, a.post, a.get, a.put, a.delete⟩, s⟩
  | Key.o => ⟨cfg.OK, false, ⟨a.url, a.arg, true, a.get, a.put, a.delete⟩, s⟩
  | Key.g => ⟨cfg.OK, false, ⟨a.url, a.arg, a.post, true, a.put, a.delete⟩, s⟩
  | Key.p => ⟨cfg.OK, false, ⟨a.url, a.arg, a.post, a.get, true, a.delete⟩, s⟩
  | Key.d => ⟨cfg.OK, false, ⟨a.url, a.arg, a.post, a.get, a.put, true⟩, s⟩
  | Key.ARGP_KEY_NO_ARGS =>
    if a.post = true || a.put = true || a.delete = true then
      ⟨cfg.REQ_ERR, true, a, s⟩
    else
      ⟨cfg.OK, false, a, s⟩
  | Key.ARGP_KEY_ARG =>
    if arg_num ≥ 1 then
      ⟨cfg.REQ_ERR, true, a, s⟩
    else
      ⟨cfg.OK, false, ⟨a.url, arg, a.post, a.get, a.put, a.delete⟩, s⟩
  | Key.ARGP_KEY_END =>
    if a.url = none then
      ⟨cfg.REQ_ERR, true, a, s⟩
    else if a.get = false && a.post = false && a.put = false && a.delete = false then
      ⟨cfg.REQ_ERR, true, a, s⟩
    else
      ⟨cfg.OK, false, a, s⟩
  | Key.ARGP_KEY_SUCCESS =>
    if a.get then
      ⟨cfg.OK, false, a, (doCurlAction cfg env a.url CharPtr.null "GET" false s).2⟩
    else if a.post then
      ⟨cfg.OK, false, a, (doCurlAction cfg env a.url (CharPtr.ofArg a.arg) "POST" true s).2⟩
    else if a.put then
      ⟨cfg.OK, false, a, (doCurlAction cfg env a.url (CharPtr.ofArg a.arg) "PUT" true s).2⟩
    else if a.delete then
      ⟨cfg.OK, false, a, (doCurlAction cfg env a.url (CharPtr.ofArg a.arg) "DELETE" true s).2⟩
    else
      ⟨ARGP_ERR_UNKNOWN, false, a, s⟩
  | Key.other => ⟨ARGP_ERR_UNKNOWN, false, a, s⟩

/-- One item of the command line as glibc hands it to the parser: an option
key with its argument, or a positional argument (key ARGP_KEY_ARG). -/
structure ArgvItem where
  key : Key
  arg : Option (List Byte)
deriving DecidableEq, Repr

/-- How far `argp_parse` got. -/
inductive ParseEnd where
  /-- Every parser call so far returned 0 or ARGP_ERR_UNKNOWN. -/
  | parsed
  /-- A parser call returned another value: parsing stops with that error. -/
  | failed (err : Int)
deriving DecidableEq, Repr

/-- What glibc does with the result of one parser call when `argp_parse` was
given the flags 0, as in `main`: `argp_usage` ends the process with
`argp_err_exit_status` (the flag ARGP_NO_EXIT is not set); a value other than
0 and ARGP_ERR_UNKNOWN stops the parse. -/
def afterCall (r : ParserResult) (k : Arguments → State → Res (ParseEnd × Arguments)) :
    Res (ParseEnd × Arguments) :=
  if r.usage then Res.exited argp_err_exit_status r.state
  else if r.value = 0 ∨ r.value = ARGP_ERR_UNKNOWN then k r.args r.state
  else Res.ret (ParseEnd.failed r.value, r.args) r.state

/-- The calls that follow the command-line items: ARGP_KEY_NO_ARGS when no
positional argument was seen, then ARGP_KEY_END, then ARGP_KEY_SUCCESS. -/
def argpFinish (cfg : Config) (env : CurlEnv) (arg_num : Nat) (a : Arguments) (s : State) :
    Res (ParseEnd × Arguments) :=
  let finish := fun (a1 : Arguments) (s1 : State) =>
    afterCall (parser cfg env Key.ARGP_KEY_END none arg_num a1 s1) fun a2 s2 =>
      afterCall (parser cfg env Key.ARGP_KEY_SUCCESS none arg_num a2 s2) fun a3 s3 =>
        Res.ret (ParseEnd.parsed, a3) s3
  if arg_num = 0 then
    afterCall (parser cfg env Key.ARGP_KEY_NO_ARGS none arg_num a s) finish
  else
    finish a s

/-- The parser calls for the command-line items, in order; `arg_num` counts
the positional arguments that were accepted so far. -/
def argpItems (cfg : Config) (env : CurlEnv) :
    List ArgvItem → Nat → Arguments → State → Res (ParseEnd × Arguments)
  | [], arg_num, a, s => argpFinish cfg env arg_num a s
  | it :: rest, arg_num, a, s =>
    afterCall (parser cfg env it.key it.arg arg_num a s) fun a1 s1 =>
      argpItems cfg env rest (if it.key = Key.ARGP_KEY_ARG then arg_num + 1 else arg_num) a1 s1

/-- The call `argp_parse(&argp, argc, argv, 0, 0, &arg_struct)`: the order in
which glibc calls the parser. The calls with ARGP_KEY_INIT, ARGP_KEY_ERROR and
ARGP_KEY_FINI are left out: they reach the default case of the parser, which
changes nothing. -/
def argp_parse (cfg : Config) (env : CurlEnv) (items : List ArgvItem) (a : Arguments)
    (s : State) : Res (ParseEnd × Arguments) :=
  argpItems cfg env items 0 a s

/-! ## Daemon setup and main (lines 333-381, 409-445) -/

/-- The results of the system calls of `runAsDaemon`. -/
structure DaemonEnv where
  /-- The result of `fork()`. -/
  pid : Int
  /-- The result of `setsid()`. -/
  setsid : Int
  /-- The result of `chdir("/")`. -/
  chdir : Int
deriving DecidableEq, Repr

/-- The function `_exit_process` (lines 80-85). -/
def exit_process (err : Int) (s : State) : Res Unit := Res.exited err s

/-- The function `_handle_fork` (lines 333-346). -/
def handle_fork (cfg : Config) (pid : Int) (s : State) : Res Unit :=
  if pid < 0 then exit_process cfg.NO_FORK s
  else if pid > 0 then Res.exited cfg.OK s
  else Res.ret () s

/-- The function `runAsDaemon` (lines 351-381). -/
def runAsDaemon (cfg : Config) (d : DaemonEnv) (s : State) : Res Int :=
  (handle_fork cfg d.pid s).bind fun _ s1 =>
    if d.setsid < -1 then Res.ret cfg.NO_SETSID s1
    else if d.chdir < 0 then Res.ret cfg.ERR_CHDIR s1
    else Res.ret cfg.OK s1

/-- How the program was started. -/
inductive Invocation where
  /-- With arguments (`argc > 1`): the items of the command line and the
  environment of the one request the parser makes. -/
  | cli (items : List ArgvItem) (env : CurlEnv)
  /-- Without arguments: the system-call results of the daemon setup. -/
  | daemon (d : DaemonEnv)
deriving DecidableEq, Repr

/-- Lines 412-436 of `main`: the command-line branch or the daemon branch. -/
def startup (cfg : Config) (inv : Invocation) (s : State) : Res Unit :=
  match inv with
  | Invocation.cli items env =>
    (argp_parse cfg env items ⟨none, none, false, false, false, false⟩ s).bind
      fun _ s1 => Res.ret () s1
  | Invocation.daemon d =>
    (runAsDaemon cfg d s).bind fun code s1 =>
      if code ≠ cfg.OK then exit_process code s1 else Res.ret () s1

/-- Lines 438-444 of `main`: `execute` is called twice, the exit code is the
result of the first call, the test is on the second. -/
def engine (cfg : Config) (tempExists : Bool) (cycles : List CycleInput) (s : State) :
    Res Int :=
  (execute cfg tempExists cycles s).bind fun code s1 =>
    (execute cfg tempExists cycles s1).bind fun code2 s2 =>
      if code2 ≠ cfg.OK then Res.exited code s2 else Res.exited cfg.WEIRD_EXIT s2

/-- The function `main` (lines 409-445). `tempExists` and `sink` describe the
two local files when the program starts; `chunk` starts as `{0}`. -/
def main (cfg : Config) (inv : Invocation) (tempExists : Bool) (sink : Option (List Byte))
    (cycles : List CycleInput) : Res Int :=
  (startup cfg inv ⟨CurlBuffer.empty, sink, []⟩).bind fun _ s =>
    engine cfg tempExists cycles s

/-! ## Sample values for the evaluations -/

/-- A sample of the constants of `thermostat.h`: pairwise distinct codes and
the URLs "/m" and "/s". -/
def sampleConfig : Config :=
  ⟨0, 1, 2, 5, 6, 8, 9, 10, 12, [47, 109], [47, 115]⟩

/-- A transfer that succeeds and hands over the given blocks. -/
def okTransfer (blocks : List (List Byte)) : CurlEnv :=
  ⟨true, 170, blocks.map (fun b => ⟨b, true⟩), true⟩

/-- A program state with an empty buffer, an empty actuator file and no steps
so far. -/
def freshState : State := ⟨CurlBuffer.empty, some [], []⟩

/-! ## Notions used in the statements -/

/-- The request that `requestStatus` configures (line 286). -/
def statusRequest (cfg : Config) : Request :=
  ⟨some cfg.STATUS_TBL_URL, "GET", true, none, true⟩

/-- The request that `publishMeasurement` configures for the sensor text
`text` (line 261). -/
def publishRequest (cfg : Config) (text : List Byte) : Request :=
  ⟨some cfg.MEAS_TBL_URL, "POST", false, some (CharPtr.heap (text ++ [0])), false⟩

/-- The state `s1` differs from `s` at most in the buffer and in requests
added to the steps: same actuator file, same sensor openings, same
`setHeater` calls. -/
def OnlyRequests (s s1 : State) : Prop :=
  s1.sink = s.sink ∧ sensorOpensOf s1.trace = sensorOpensOf s.trace
    ∧ heaterCallsOf s1.trace = heaterCallsOf s.trace

/-- Whether a key can stand for an item of the command line: one of the five
options, or a positional argument. -/
def Key.isItem : Key → Bool
  | Key.u => true
  | Key.o => true
  | Key.g => true
  | Key.p => true
  | Key.d => true
  | Key.ARGP_KEY_ARG => true
  | _ => false

/-- The parse was refused with the program state still `s`: the process ended
in `argp_usage` with `argp_err_exit_status`, or `argp_parse` returned an
error. -/
def Rejected (s : State) : Res (ParseEnd × Arguments) → Prop
  | Res.exited code s1 => code = argp_err_exit_status ∧ s1 = s
  | Res.ret (ParseEnd.failed _, _) s1 => s1 = s
  | _ => False

/-! ## Lemmas on blocks and the buffer -/

theorem realloc_keeps (fill : Byte) (c rest : List Byte) (n : Nat) (h : c.length ≤ n) :
    ∃ t, realloc fill (some (c ++ rest)) n = c ++ t ∧ t.length = n - c.length := by
  refine ⟨(rest.take (n - c.length)) ++ List.replicate
      (n - ((c ++ rest).take n).length) fill, ?_, ?_⟩
  · simp only [realloc, Option.getD_some, List.take_append_eq_append_take,
      List.take_of_length_le h, List.append_assoc]
  · simp only [List.length_append, List.length_take, List.length_replicate]
    omega

theorem store_after_copy (c d t : List Byte) (h : t.length = d.length + 1) :
    (memcpy (c ++ t) c.length d d.length).set (c.length + d.length) 0 = c ++ d ++ [0] := by
  have h1 : (t.drop d.length).length = 1 := by simp [h]
  obtain ⟨x, hx⟩ := List.length_eq_one.mp h1
  simp only [memcpy, List.take_left, List.take_length, List.drop_append, hx]
  rw [List.set_append_right _ _ (by simp)]
  simp

theorem call_back_some (fill : Byte) (c rest d : List Byte) (size nmemb : Nat)
    (hlen : size * nmemb = d.length) (hb : c.length + d.length + 1 < SIZE_MOD) :
    call_back fill true d size nmemb ⟨some (c ++ rest), c.length⟩
      = (d.length, ⟨some (c ++ d ++ [0]), c.length + d.length⟩) := by
  have e1 : d.length % SIZE_MOD = d.length := Nat.mod_eq_of_lt (by omega)
  have e2 : (c.length + d.length + 1) % SIZE_MOD = c.length + d.length + 1 :=
    Nat.mod_eq_of_lt hb
  have e3 : (c.length + d.length) % SIZE_MOD = c.length + d.length :=
    Nat.mod_eq_of_lt (by omega)
  obtain ⟨t, ht, htl⟩ := realloc_keeps fill c rest (c.length + d.length + 1) (by omega)
  have htl2 : t.length = d.length + 1 := by omega
  simp only [call_back, hlen, e1, e2, e3, ht, store_after_copy c d t htl2]
  simp

theorem call_back_null (fill : Byte) (d : List Byte) (size nmemb : Nat)
    (hlen : size * nmemb = d.length) (hb : d.length + 1 < SIZE_MOD) :
    call_back fill true d size nmemb ⟨none, 0⟩ = (d.length, ⟨some (d ++ [0]), d.length⟩) := by
  have e1 : d.length % SIZE_MOD = d.length := Nat.mod_eq_of_lt (by omega)
  have e2 : (d.length + 1) % SIZE_MOD = d.length + 1 := Nat.mod_eq_of_lt hb
  have hr : realloc fill none (d.length + 1) = List.replicate (d.length + 1) fill := by
    simp [realloc]
  have hs := store_after_copy [] d (List.replicate (d.length + 1) fill) (by simp)
  simp only [List.nil_append, List.length_nil, Nat.zero_add] at hs
  simp only [call_back, hlen, e1, e2, Nat.zero_add, hr, hs]
  simp

theorem holds_cases (buf : CurlBuffer) (c : List Byte) (h : Holds buf c) :
    (buf = ⟨none, 0⟩ ∧ c = []) ∨ ∃ rest, buf = ⟨some (c ++ rest), c.length⟩ := by
  obtain ⟨resp, size⟩ := buf
  obtain ⟨h1, h2⟩ := h
  simp only [CurlBuffer.contents] at h1 h2
  subst h2
  cases resp with
  | none =>
    left
    simp only [Option.getD_none, List.take_nil] at h1
    subst h1
    simp
  | some b =>
    right
    refine ⟨b.drop c.length, ?_⟩
    simp only [Option.getD_some] at h1
    have : b = c ++ b.drop c.length := by
      conv_lhs => rw [← List.take_append_drop c.length b, h1]
    rw [← this]

theorem call_back_holds (fill : Byte) (buf : CurlBuffer) (c d : List Byte) (size nmemb : Nat)
    (h : Holds buf c) (hlen : size * nmemb = d.length)
    (hb : c.length + d.length + 1 < SIZE_MOD) :
    call_back fill true d size nmemb buf
      = (d.length, ⟨some (c ++ d ++ [0]), c.length + d.length⟩) := by
  rcases holds_cases buf c h with ⟨hbuf, hc⟩ | ⟨rest, hbuf⟩
  · subst hbuf; subst hc
    have := call_back_null fill d size nmemb hlen (by simpa using hb)
    simpa using this
  · subst hbuf
    exact call_back_some fill c rest d size nmemb hlen hb

theorem holds_after (c d : List Byte) :
    Holds ⟨some (c ++ d ++ [0]), c.length + d.length⟩ (c ++ d) := by
  constructor
  · simp only [CurlBuffer.contents, Option.getD_some]
    rw [← List.length_append, List.take_left]
  · simp

theorem holds_empty : Holds CurlBuffer.empty [] := by
  constructor <;> rfl

theorem deliver_accepted (fill : Byte) (blocks : List Delivery) :
    ∀ (buf : CurlBuffer) (c : List Byte), Holds buf c → allAccepted blocks = true →
      c.length + (bodyOf blocks).length + 1 < SIZE_MOD → blocks ≠ [] →
      deliver fill blocks buf
        = (true, ⟨some (c ++ bodyOf blocks ++ [0]), c.length + (bodyOf blocks).length⟩) := by
  induction blocks with
  | nil => intro _ _ _ _ _ h; exact absurd rfl h
  | cons d rest ih =>
    intro buf c h hacc hb _
    simp only [allAccepted, List.all_cons, Bool.and_eq_true] at hacc
    have hbody : bodyOf (d :: rest) = d.data ++ bodyOf rest := by simp [bodyOf]
    rw [hbody] at hb ⊢
    simp only [List.length_append] at hb
    have hcb := call_back_holds fill buf c d.data 1 d.data.length h (by simp) (by omega)
    simp only [deliver, hacc.1, hcb, Nat.one_mul, if_true]
    by_cases hrest : rest = []
    · subst hrest
      simp [deliver, bodyOf]
    · have := ih _ (c ++ d.data) (holds_after c d.data) (by simpa [allAccepted] using hacc.2)
        (by simp only [List.length_append]; omega) hrest
      rw [this]
      simp [List.append_assoc, Nat.add_assoc]

theorem call_back_refused (fill : Byte) (d : List Byte) (size nmemb : Nat) (buf : CurlBuffer) :
    call_back fill false d size nmemb buf = (0, buf) := by
  simp [call_back]

theorem deliver_none_accepted (fill : Byte) (blocks : List Delivery) :
    ∀ (buf : CurlBuffer), someAccepted blocks = false → (deliver fill blocks buf).1 = true →
      (deliver fill blocks buf).2 = buf ∧ bodyOf blocks = [] := by
  induction blocks with
  | nil => intro buf _ _; exact ⟨rfl, rfl⟩
  | cons d rest ih =>
    intro buf hno hok
    simp only [someAccepted, List.any_cons, Bool.or_eq_false_iff] at hno
    obtain ⟨hd, hrest⟩ := hno
    simp only [deliver, hd, call_back_refused, Nat.one_mul] at hok ⊢
    by_cases hlen : 0 = d.data.length
    · simp only [hlen, if_true] at hok ⊢
      obtain ⟨h1, h2⟩ := ih buf hrest hok
      refine ⟨h1, ?_⟩
      have hnil : d.data = [] := List.length_eq_zero.mp hlen.symm
      simp only [bodyOf, List.map_cons, List.flatten_cons, hnil, List.nil_append]
      exact h2
    · simp only [hlen, if_false] at hok
      exact absurd hok (by simp)

theorem deliver_some_accepted (fill : Byte) (blocks : List Delivery) :
    ∀ (buf : CurlBuffer) (c : List Byte), Holds buf c →
      c.length + (bodyOf blocks).length + 1 < SIZE_MOD →
      someAccepted blocks = true → (deliver fill blocks buf).1 = true →
      (deliver fill blocks buf).2
        = ⟨some (c ++ bodyOf blocks ++ [0]), c.length + (bodyOf blocks).length⟩ := by
  induction blocks with
  | nil => intro buf c _ _ h _; exact absurd h (by simp [someAccepted])
  | cons d rest ih =>
    intro buf c h hb hsome hok
    have hbody : bodyOf (d :: rest) = d.data ++ bodyOf rest := by simp [bodyOf]
    rw [hbody] at hb ⊢
    simp only [List.length_append] at hb
    cases hd : d.reallocOk with
    | true =>
      have hcb := call_back_holds fill buf c d.data 1 d.data.length h (by simp) (by omega)
      simp only [deliver, hd, hcb, Nat.one_mul, if_true] at hok ⊢
      cases hr : someAccepted rest with
      | true =>
        rw [ih _ (c ++ d.data) (holds_after c d.data)
          (by simp only [List.length_append]; omega) hr hok]
        simp [List.append_assoc, Nat.add_assoc]
      | false =>
        obtain ⟨h1, h2⟩ := deliver_none_accepted fill rest _ hr hok
        rw [h1, h2]
        simp
    | false =>
      simp only [someAccepted, List.any_cons, hd, Bool.false_or] at hsome
      simp only [deliver, hd, call_back_refused, Nat.one_mul] at hok ⊢
      by_cases hlen : 0 = d.data.length
      · rw [← hlen] at hok ⊢
        simp only [if_true] at hok ⊢
        have hnil : d.data = [] := List.length_eq_zero.mp hlen.symm
        rw [hnil] at hb ⊢
        simp only [List.length_nil, Nat.zero_add, List.nil_append] at hb ⊢
        exact ih buf c h hb hsome hok
      · simp only [hlen, if_false] at hok
        exact absurd hok (by simp)

/-! ## Lemmas on C strings and traces -/

theorem takeWhile_cblock (body : List Byte) :
    (body ++ [0]).takeWhile (fun b => b != 0) = body.takeWhile (fun b => b != 0) := by
  induction body with
  | nil => simp [List.takeWhile]
  | cons x xs ih =>
    by_cases hx : x = 0
    · simp [List.takeWhile, hx]
    · simp [List.takeWhile, hx, ih]

theorem cstr_cblock (body : List Byte) :
    cstr (body ++ [0]) = some (body.takeWhile (fun b => b != 0)) := by
  simp [cstr, takeWhile_cblock]

theorem takeWhile_no_zero (body : List Byte) (h : (0 : Byte) ∉ body) :
    body.takeWhile (fun b => b != 0) = body := by
  induction body with
  | nil => rfl
  | cons x xs ih =>
    simp only [List.mem_cons, not_or] at h
    have hx : (x != 0) = true := by
      simp only [bne_iff_ne, ne_eq]
      exact fun e => h.1 e.symm
    simp only [List.takeWhile, hx, ih h.2]

theorem heaterCallsOf_append (xs ys : List Event) :
    heaterCallsOf (xs ++ ys) = heaterCallsOf xs ++ heaterCallsOf ys := by
  induction xs with
  | nil => rfl
  | cons e es ih => cases e <;> simp [heaterCallsOf, ih]

theorem requestsOf_append (xs ys : List Event) :
    requestsOf (xs ++ ys) = requestsOf xs ++ requestsOf ys := by
  induction xs with
  | nil => rfl
  | cons e es ih => cases e <;> simp [requestsOf, ih]

theorem sensorOpensOf_append (xs ys : List Event) :
    sensorOpensOf (xs ++ ys) = sensorOpensOf xs + sensorOpensOf ys := by
  induction xs with
  | nil => simp [sensorOpensOf]
  | cons e es ih =>
    cases e <;> simp [sensorOpensOf, ih]
    omega

/-! ## Lemmas on the two requests of a cycle -/

theorem configure_status (cfg : Config) :
    configure (some cfg.STATUS_TBL_URL) CharPtr.null "GET" false = statusRequest cfg := by
  simp [configure, statusRequest]

theorem requestStatus_returned (cfg : Config) (env : CurlEnv) (sinkOpens : Bool)
    (s : State) (c : List Byte)
    (hinit : env.initOk = true)
    (hperf : (curl_easy_perform env (statusRequest cfg) s.chunk).1 = true)
    (hsome : someAccepted env.blocks = true)
    (hc : Holds s.chunk c) (hb : c.length + (bodyOf env.blocks).length + 1 < SIZE_MOD) :
    ∃ s2, requestStatus cfg env sinkOpens s = Res.ret () s2
      ∧ s2.chunk = CurlBuffer.empty
      ∧ s2.trace = s.trace ++ [Event.request (statusRequest cfg),
          Event.heater (if (c ++ bodyOf env.blocks).takeWhile (fun b => b != 0) = lit_true
            then lit_ON else lit_OFF)] := by
  have hacc : (statusRequest cfg).accumulate = true := rfl
  simp only [curl_easy_perform, hacc, if_true, Bool.and_eq_true] at hperf
  obtain ⟨hdel, htr⟩ := hperf
  have hd := deliver_some_accepted env.fill env.blocks s.chunk c hc hb hsome hdel
  have h1 : doCurlAction cfg env (some cfg.STATUS_TBL_URL) CharPtr.null "GET" false s
      = (CharPtr.heap (c ++ bodyOf env.blocks ++ [0]),
          ⟨⟨some (c ++ bodyOf env.blocks ++ [0]), c.length + (bodyOf env.blocks).length⟩,
            s.sink, s.trace ++ [Event.request (statusRequest cfg)]⟩) := by
    simp [doCurlAction, configure_status, curl_easy_perform, hacc, hinit, htr, hdel, hd,
      CharPtr.ofResponse]
  simp only [requestStatus, h1, strcmpEq, cstr_cblock, Option.map_some']
  by_cases hcmp : (c ++ bodyOf env.blocks).takeWhile (fun b => b != 0) = lit_true
  · simp [hcmp, setHeater, CurlBuffer.empty]
    cases sinkOpens <;> simp
  · simp [hcmp, setHeater, CurlBuffer.empty]
    cases sinkOpens <;> simp

theorem requestStatus_failed (cfg : Config) (env : CurlEnv) (sinkOpens : Bool) (s : State)
    (hfail : env.initOk = false ∨ (curl_easy_perform env (statusRequest cfg) s.chunk).1 = false) :
    requestStatus cfg env sinkOpens s
      = Res.fault (doCurlAction cfg env (some cfg.STATUS_TBL_URL) CharPtr.null "GET" false s).2 := by
  by_cases hinit : env.initOk = true
  · have hp : (curl_easy_perform env (statusRequest cfg) s.chunk).1 = false := by
      rcases hfail with h | h
      · rw [hinit] at h; exact absurd h (by simp)
      · exact h
    simp [requestStatus, doCurlAction, configure_status, hinit, hp, strcmpEq]
  · simp [requestStatus, doCurlAction, hinit, strcmpEq]

theorem onlyRequests_refl (s : State) : OnlyRequests s s := ⟨rfl, rfl, rfl⟩

theorem onlyRequests_trans (s s1 s2 : State) (h1 : OnlyRequests s s1)
    (h2 : OnlyRequests s1 s2) : OnlyRequests s s2 :=
  ⟨h2.1.trans h1.1, h2.2.1.trans h1.2.1, h2.2.2.trans h1.2.2⟩

theorem doCurlAction_state (cfg : Config) (env : CurlEnv) (url : Option (List Byte))
    (message : CharPtr) (type : String) (hasVerb : Bool) (s : State) :
    (doCurlAction cfg env url message type hasVerb s).2
      = if env.initOk then
          ⟨(curl_easy_perform env (configure url message type hasVerb) s.chunk).2, s.sink,
            s.trace ++ [Event.request (configure url message type hasVerb)]⟩
        else s := by
  unfold doCurlAction
  by_cases hinit : env.initOk = true
  · simp only [hinit, if_true]
    split_ifs <;> rfl
  · simp only [hinit, Bool.false_eq_true, if_false]

theorem doCurlAction_onlyRequests (cfg : Config) (env : CurlEnv) (url : Option (List Byte))
    (message : CharPtr) (type : String) (hasVerb : Bool) (s : State) :
    OnlyRequests s (doCurlAction cfg env url message type hasVerb s).2 := by
  rw [doCurlAction_state]
  split_ifs
  · simp [OnlyRequests, sensorOpensOf_append, heaterCallsOf_append, sensorOpensOf,
      heaterCallsOf]
  · exact onlyRequests_refl s

theorem parser_onlyRequests (cfg : Config) (env : CurlEnv) (key : Key)
    (arg : Option (List Byte)) (arg_num : Nat) (a : Arguments) (s : State) :
    OnlyRequests s (parser cfg env key arg arg_num a s).state := by
  cases key <;> simp only [parser] <;> try exact onlyRequests_refl s
  all_goals
    split_ifs <;> first
      | exact onlyRequests_refl s
      | exact doCurlAction_onlyRequests _ _ _ _ _ _ _

theorem afterCall_onlyRequests (s : State) (r : ParserResult)
    (k : Arguments → State → Res (ParseEnd × Arguments))
    (hr : OnlyRequests s r.state)
    (hk : ∀ a1 s1, OnlyRequests s s1 → OnlyRequests s (k a1 s1).state) :
    OnlyRequests s (afterCall r k).state := by
  unfold afterCall
  split_ifs
  · exact hr
  · exact hk _ _ hr
  · exact hr

theorem argpFinish_onlyRequests (cfg : Config) (env : CurlEnv) (arg_num : Nat)
    (a : Arguments) (s0 s : State) (h : OnlyRequests s0 s) :
    OnlyRequests s0 (argpFinish cfg env arg_num a s).state := by
  have hfin : ∀ a1 s1, OnlyRequests s0 s1 →
      OnlyRequests s0 (afterCall (parser cfg env Key.ARGP_KEY_END none arg_num a1 s1)
        fun a2 s2 =>
          afterCall (parser cfg env Key.ARGP_KEY_SUCCESS none arg_num a2 s2) fun a3 s3 =>
            Res.ret (ParseEnd.parsed, a3) s3).state := by
    intro a1 s1 h1
    apply afterCall_onlyRequests
    · exact onlyRequests_trans _ _ _ h1 (parser_onlyRequests _ _ _ _ _ _ _)
    · intro a2 s2 h2
      apply afterCall_onlyRequests
      · exact onlyRequests_trans _ _ _ h2 (parser_onlyRequests _ _ _ _ _ _ _)
      · intro a3 s3 h3
        exact h3
  unfold argpFinish
  split_ifs
  · apply afterCall_onlyRequests
    · exact onlyRequests_trans _ _ _ h (parser_onlyRequests _ _ _ _ _ _ _)
    · exact hfin
  · exact hfin a s h

theorem argpItems_onlyRequests (cfg : Config) (env : CurlEnv) (items : List ArgvItem) :
    ∀ (arg_num : Nat) (a : Arguments) (s0 s : State), OnlyRequests s0 s →
      OnlyRequests s0 (argpItems cfg env items arg_num a s).state := by
  induction items with
  | nil =>
    intro arg_num a s0 s h
    exact argpFinish_onlyRequests cfg env arg_num a s0 s h
  | cons it rest ih =>
    intro arg_num a s0 s h
    simp only [argpItems]
    apply afterCall_onlyRequests
    · exact onlyRequests_trans _ _ _ h (parser_onlyRequests _ _ _ _ _ _ _)
    · intro a1 s1 h1
      exact ih _ a1 s0 s1 h1

theorem startup_onlyRequests (cfg : Config) (inv : Invocation) (s : State) :
    OnlyRequests s (startup cfg inv s).state := by
  cases inv with
  | cli items env =>
    simp only [startup, argp_parse]
    have := argpItems_onlyRequests cfg env items 0 ⟨none, none, false, false, false, false⟩
      s s (onlyRequests_refl s)
    cases h : argpItems cfg env items 0 ⟨none, none, false, false, false, false⟩ s <;>
      simp_all [Res.bind, Res.state]
  | daemon d =>
    simp only [startup, runAsDaemon, handle_fork, exit_process]
    split_ifs <;> simp [Res.bind, Res.state, onlyRequests_refl] <;>
      split_ifs <;> simp [Res.state, onlyRequests_refl]

theorem startup_daemon_state (cfg : Config) (d : DaemonEnv) (s : State) :
    (startup cfg (Invocation.daemon d) s).state = s := by
  simp only [startup, runAsDaemon, handle_fork, exit_process]
  split_ifs <;> simp [Res.bind, Res.state] <;> split_ifs <;> simp [Res.state]

/-! ## Lemmas on refused command lines -/

theorem afterCall_usage (s : State) (r : ParserResult)
    (k : Arguments → State → Res (ParseEnd × Arguments))
    (hu : r.usage = true) (hs : r.state = s) : Rejected s (afterCall r k) := by
  simp [afterCall, hu, Rejected, hs]

theorem afterCall_next (s : State) (r : ParserResult)
    (k : Arguments → State → Res (ParseEnd × Arguments))
    (hu : r.usage = false) (hs : r.state = s) (hk : Rejected s (k r.args s)) :
    Rejected s (afterCall r k) := by
  unfold afterCall
  simp only [hu, Bool.false_eq_true, if_false]
  split_ifs
  · rw [hs]; exact hk
  · simp [Rejected, hs]

theorem argpFinish_url_absent (cfg : Config) (env : CurlEnv) (arg_num : Nat)
    (a : Arguments) (s : State) (hurl : a.url = none) :
    Rejected s (argpFinish cfg env arg_num a s) := by
  have hend : ∀ (k : Arguments → State → Res (ParseEnd × Arguments)),
      Rejected s (afterCall (parser cfg env Key.ARGP_KEY_END none arg_num a s) k) := by
    intro k
    apply afterCall_usage <;> simp [parser, hurl]
  unfold argpFinish
  by_cases h0 : arg_num = 0
  · subst h0
    simp only [if_true]
    by_cases hv : (a.post = true || a.put = true || a.delete = true) = true
    · apply afterCall_usage <;> simp only [parser, hv, if_true]
    · have hp : parser cfg env Key.ARGP_KEY_NO_ARGS none 0 a s = ⟨cfg.OK, false, a, s⟩ := by
        simp only [parser, hv, if_false, Bool.false_eq_true]
      rw [hp]
      exact afterCall_next s _ _ rfl rfl (hend _)
  · simp only [h0, if_false]
    exact hend _

theorem argpItems_url_absent (cfg : Config) (env : CurlEnv) (items : List ArgvItem) :
    ∀ (arg_num : Nat) (a : Arguments) (s : State),
      (∀ it ∈ items, it.key.isItem = true ∧ it.key ≠ Key.u) → a.url = none →
      Rejected s (argpItems cfg env items arg_num a s) := by
  induction items with
  | nil =>
    intro arg_num a s _ hurl
    exact argpFinish_url_absent cfg env arg_num a s hurl
  | cons it rest ih =>
    intro arg_num a s hit hurl
    have hrest : ∀ x ∈ rest, x.key.isItem = true ∧ x.key ≠ Key.u :=
      fun x hx => hit x (List.mem_cons_of_mem _ hx)
    obtain ⟨hk1, hk2⟩ := hit it (List.mem_cons_self _ _)
    obtain ⟨key, arg⟩ := it
    cases key <;> simp only [Key.isItem, ne_eq, not_true_eq_false] at hk1 hk2 <;>
      try exact absurd hk1 (by decide)
    all_goals
      simp only [argpItems, parser, afterCall]
      split_ifs <;> first
        | (simp [Rejected]; done)
        | exact ih _ _ s hrest hurl

theorem argpItems_post_no_body (cfg : Config) (env : CurlEnv) (items : List ArgvItem) :
    ∀ (a : Arguments) (s : State),
      (∀ it ∈ items, it.key.isItem = true ∧ it.key ≠ Key.ARGP_KEY_ARG) →
      (a.post = true ∨ ∃ it ∈ items, it.key = Key.o) →
      Rejected s (argpItems cfg env items 0 a s) := by
  induction items with
  | nil =>
    intro a s _ hpost
    have hp : a.post = true := by
      rcases hpost with h | ⟨it, hmem, _⟩
      · exact h
      · exact absurd hmem (List.not_mem_nil _)
    simp only [argpItems, argpFinish, if_true]
    apply afterCall_usage <;> simp [parser, hp]
  | cons it rest ih =>
    intro a s hit hpost
    have hrest : ∀ x ∈ rest, x.key.isItem = true ∧ x.key ≠ Key.ARGP_KEY_ARG :=
      fun x hx => hit x (List.mem_cons_of_mem _ hx)
    obtain ⟨hk1, hk2⟩ := hit it (List.mem_cons_self _ _)
    obtain ⟨key, arg⟩ := it
    have hother : key ≠ Key.o → (a.post = true ∨ ∃ x ∈ rest, x.key = Key.o) := by
      intro hko
      rcases hpost with h | ⟨x, hmem, hx⟩
      · exact Or.inl h
      · rcases List.mem_cons.mp hmem with hx1 | hx1
        · subst hx1
          exact absurd hx hko
        · exact Or.inr ⟨x, hx1, hx⟩
    cases key <;> simp only [Key.isItem, ne_eq, not_true_eq_false] at hk1 hk2 <;>
      try exact absurd hk1 (by decide)
    all_goals
      simp only [argpItems, parser, afterCall]
      split_ifs <;> first
        | (simp [Rejected]; done)
        | exact ih _ s hrest (Or.inl rfl)
        | exact ih _ s hrest (hother (by decide))

/-! ## Lemmas on the buffer in the loop -/

theorem publishMeasurement_chunk (cfg : Config) (sensor : Option (List Byte))
    (env : CurlEnv) (s : State) :
    (publishMeasurement cfg sensor env s).state.chunk = s.chunk := by
  have hv : decide ("POST" = "GET") = false := by decide
  cases sensor with
  | none => rfl
  | some text =>
    simp only [publishMeasurement, Res.state, doCurlAction_state]
    split_ifs
    · simp [curl_easy_perform, configure, hv]
    · rfl

theorem requestStatus_resets (cfg : Config) (env : CurlEnv) (sinkOpens : Bool)
    (s s2 : State) (h : requestStatus cfg env sinkOpens s = Res.ret () s2) :
    s2.chunk = CurlBuffer.empty := by
  simp only [requestStatus] at h
  split at h
  · exact absurd h (by simp)
  · simp only [Res.ret.injEq, true_and] at h
    rw [← h]
    rfl

theorem publishMeasurement_not_looping (cfg : Config) (sensor : Option (List Byte))
    (env : CurlEnv) (s s1 : State) :
    publishMeasurement cfg sensor env s ≠ Res.looping s1 := by
  cases sensor <;> simp [publishMeasurement]

theorem requestStatus_not_looping (cfg : Config) (env : CurlEnv) (sinkOpens : Bool)
    (s s1 : State) : requestStatus cfg env sinkOpens s ≠ Res.looping s1 := by
  simp only [requestStatus]
  split <;> simp

theorem controlLoop_chunk (cfg : Config) (cycles : List CycleInput) :
    ∀ (s s2 : State), s.chunk = CurlBuffer.empty →
      controlLoop cfg cycles s = Res.looping s2 → s2.chunk = CurlBuffer.empty := by
  induction cycles with
  | nil =>
    intro s s2 hs h
    simp only [controlLoop, Res.looping.injEq] at h
    rw [← h]
    exact hs
  | cons c rest ih =>
    intro s s2 _ h
    simp only [controlLoop] at h
    cases hp : publishMeasurement cfg c.sensor c.post s with
    | ret u s1 =>
      rw [hp] at h
      simp only [Res.bind] at h
      cases hr : requestStatus cfg c.get c.sinkOpens s1 with
      | ret u2 s3 =>
        rw [hr] at h
        simp only [Res.bind] at h
        exact ih s3 s2 (requestStatus_resets cfg c.get c.sinkOpens s1 s3 hr) h
      | fault s3 => rw [hr] at h; simp [Res.bind] at h
      | exited code s3 => rw [hr] at h; simp [Res.bind] at h
      | looping s3 => exact absurd hr (requestStatus_not_looping _ _ _ _ _)
    | fault s1 => rw [hp] at h; simp [Res.bind] at h
    | exited code s1 => rw [hp] at h; simp [Res.bind] at h
    | looping s1 => exact absurd hp (publishMeasurement_not_looping _ _ _ _ _)

/-! ## The write callback -/

/-- C10: when `realloc` succeeds, `call_back` returns `size * nmemb` and leaves
the buffer holding the old body bytes `c` followed by the block `d` and a 0
byte, with the size grown by `size * nmemb`; a sequence of accepted blocks
delivered into the empty buffer leaves their concatenation in delivery order;
when `realloc` fails it returns 0 and leaves the buffer as it was. -/
theorem call_back_contract :
    (∀ (fill : Byte) (buf : CurlBuffer) (c d : List Byte) (size nmemb : Nat),
        Holds buf c → size * nmemb = d.length → c.length + d.length + 1 < SIZE_MOD →
        call_back fill true d size nmemb buf
          = (size * nmemb, ⟨some (c ++ d ++ [0]), buf.size + size * nmemb⟩))
    ∧ (∀ (fill : Byte) (blocks : List Delivery),
        allAccepted blocks = true → (bodyOf blocks).length + 1 < SIZE_MOD →
        (deliver fill blocks CurlBuffer.empty).1 = true
        ∧ (deliver fill blocks CurlBuffer.empty).2.contents = bodyOf blocks
        ∧ (deliver fill blocks CurlBuffer.empty).2.size = (bodyOf blocks).length)
    ∧ (∀ (fill : Byte) (buf : CurlBuffer) (d : List Byte) (size nmemb : Nat),
        call_back fill false d size nmemb buf = (0, buf)) := by
  refine ⟨?_, ?_, ?_⟩
  · intro fill buf c d size nmemb h hlen hb
    rw [call_back_holds fill buf c d size nmemb h hlen hb, hlen, h.2]
  · intro fill blocks hacc hb
    by_cases hne : blocks = []
    · subst hne
      simp [deliver, bodyOf, CurlBuffer.contents, CurlBuffer.empty]
    · have hd := deliver_accepted fill blocks CurlBuffer.empty [] holds_empty hacc
        (by simpa using hb) hne
      have h2 := holds_after [] (bodyOf blocks)
      simp only [List.nil_append, List.length_nil, Nat.zero_add] at hd h2
      rw [hd]
      exact ⟨rfl, h2.1, h2.2⟩
  · intro fill buf d size nmemb
    simp [call_back]

/-- C10 at concrete values: the block "ue" appended to a buffer that holds
"tr", the blocks "tr" and "ue" delivered into the empty buffer, and a failed
`realloc`. -/
theorem call_back_contract_witness :
    call_back 7 true [117, 101] 1 2 ⟨some [116, 114, 0], 2⟩
      = (2, ⟨some [116, 114, 117, 101, 0], 4⟩)
    ∧ (deliver 7 [⟨[116, 114], true⟩, ⟨[117, 101], true⟩] CurlBuffer.empty).2.contents
      = [116, 114, 117, 101]
    ∧ call_back 7 false [117, 101] 1 2 ⟨some [116, 114, 0], 2⟩
      = (0, ⟨some [116, 114, 0], 2⟩) :=
  ⟨call_back_contract.1 7 ⟨some [116, 114, 0], 2⟩ [116, 114] [117, 101] 1 2
      (by decide) (by decide) (by decide),
    (call_back_contract.2.1 7 [⟨[116, 114], true⟩, ⟨[117, 101], true⟩]
      (by decide) (by decide)).2.1,
    call_back_contract.2.2 7 ⟨some [116, 114, 0], 2⟩ [117, 101] 1 2⟩

/-! ## The status request and the heater -/

/-- C1 (amended): for a status GET for which `curl_easy_init` gives a handle
and `curl_easy_perform` returns CURLE_OK, that starts from the empty buffer
and has at least one callback call whose `realloc` succeeds (so that
`chunk.response` is not NULL), with a body `b` of fewer than 2^64 - 1 bytes,
`requestStatus` returns after exactly one `setHeater` call; the argument is
"ON" when the bytes of `b` before its first 0 byte are exactly "true" and
"OFF" otherwise; for a body without a 0 byte that is: "ON" when `b` is "true",
else "OFF". -/
theorem requestStatus_sets_heater (cfg : Config) (env : CurlEnv) (sinkOpens : Bool)
    (s : State)
    (hinit : env.initOk = true)
    (hperf : (curl_easy_perform env (statusRequest cfg) s.chunk).1 = true)
    (hsome : someAccepted env.blocks = true)
    (hchunk : s.chunk = CurlBuffer.empty)
    (hb : (bodyOf env.blocks).length + 1 < SIZE_MOD) :
    ∃ s2, requestStatus cfg env sinkOpens s = Res.ret () s2
      ∧ heaterCallsOf s2.trace = heaterCallsOf s.trace ++
          [if (bodyOf env.blocks).takeWhile (fun b => b != 0) = lit_true
            then lit_ON else lit_OFF]
      ∧ ((0 : Byte) ∉ bodyOf env.blocks →
          heaterCallsOf s2.trace = heaterCallsOf s.trace ++
            [if bodyOf env.blocks = lit_true then lit_ON else lit_OFF]) := by
  have hc : Holds s.chunk [] := by rw [hchunk]; exact holds_empty
  obtain ⟨s2, h1, _, h3⟩ := requestStatus_returned cfg env sinkOpens s [] hinit hperf hsome hc
    (by simpa using hb)
  have hcalls : heaterCallsOf s2.trace = heaterCallsOf s.trace ++
      [if (bodyOf env.blocks).takeWhile (fun b => b != 0) = lit_true
        then lit_ON else lit_OFF] := by
    rw [h3, heaterCallsOf_append]
    simp [heaterCallsOf]
  refine ⟨s2, h1, hcalls, ?_⟩
  intro hz
  rw [hcalls, takeWhile_no_zero _ hz]

/-- C1 (amended) at the body "true" delivered in one block, and at the body
"false" delivered as "fal", an empty block whose `realloc` fails, and "se". -/
theorem requestStatus_sets_heater_witness :
    (∃ s2, requestStatus sampleConfig (okTransfer [lit_true]) true freshState = Res.ret () s2
      ∧ heaterCallsOf s2.trace = [lit_ON])
    ∧ (∃ s2, requestStatus sampleConfig
          ⟨true, 170, [⟨[102, 97, 108], true⟩, ⟨[], false⟩, ⟨[115, 101], true⟩], true⟩
          true freshState = Res.ret () s2
      ∧ heaterCallsOf s2.trace = [lit_OFF]) := by
  obtain ⟨s2, h1, _, h3⟩ := requestStatus_sets_heater sampleConfig (okTransfer [lit_true])
    true freshState rfl (by decide) (by decide) rfl (by decide)
  obtain ⟨s3, h4, _, h6⟩ := requestStatus_sets_heater sampleConfig
    ⟨true, 170, [⟨[102, 97, 108], true⟩, ⟨[], false⟩, ⟨[115, 101], true⟩], true⟩
    true freshState rfl (by decide) (by decide) rfl (by decide)
  exact ⟨⟨s2, h1, h3 (by decide)⟩, ⟨s3, h4, h6 (by decide)⟩⟩

/-- C1 as stated fails: the body "true" followed by a 0 byte is not equal to
"true", yet `setHeater` is called with "ON"; and an empty body for which the
callback is never called leaves `chunk.response` NULL, so that `strcmp` reads
through NULL and no `setHeater` call is made. -/
theorem requestStatus_claim_counterexample :
    (bodyOf (okTransfer [[116, 114, 117, 101, 0]]).blocks ≠ lit_true
      ∧ heaterCallsOf (requestStatus sampleConfig (okTransfer [[116, 114, 117, 101, 0]])
          true freshState).state.trace = [lit_ON])
    ∧ (bodyOf (okTransfer []).blocks = []
      ∧ requestStatus sampleConfig (okTransfer []) true freshState
          = Res.fault ⟨CurlBuffer.empty, some [],
              [Event.request (statusRequest sampleConfig)]⟩) := by
  decide

/-- C2: in every cycle in which the status GET fails with a transport error
(`curl_easy_init` gives no handle, so that `doCurlAction` returns INIT_ERR, or
`curl_easy_perform` does not return CURLE_OK, so that it returns REQ_ERR),
`requestStatus` makes no call of `setHeater` and the actuator file keeps its
content. (The run ends at the `strcmp` on the returned error code; it does
not come back to the loop.) -/
theorem requestStatus_failed_get_no_heater (cfg : Config) (env : CurlEnv)
    (sinkOpens : Bool) (s : State)
    (hfail : env.initOk = false
      ∨ (curl_easy_perform env (statusRequest cfg) s.chunk).1 = false) :
    heaterCallsOf (requestStatus cfg env sinkOpens s).state.trace = heaterCallsOf s.trace
      ∧ (requestStatus cfg env sinkOpens s).state.sink = s.sink
      ∧ ∃ s1, requestStatus cfg env sinkOpens s = Res.fault s1 := by
  have hr := requestStatus_failed cfg env sinkOpens s hfail
  have hloc := doCurlAction_onlyRequests cfg env (some cfg.STATUS_TBL_URL) CharPtr.null
    "GET" false s
  rw [hr]
  exact ⟨hloc.2.2, hloc.1, _, rfl⟩

/-- C2 at a status GET that ends with a transport error, the actuator file
holding "ON" before the cycle. -/
theorem requestStatus_failed_get_no_heater_witness :
    heaterCallsOf (requestStatus sampleConfig ⟨true, 170, [], false⟩ true
        ⟨CurlBuffer.empty, some lit_ON, []⟩).state.trace = []
      ∧ (requestStatus sampleConfig ⟨true, 170, [], false⟩ true
        ⟨CurlBuffer.empty, some lit_ON, []⟩).state.sink = some lit_ON :=
  ⟨(requestStatus_failed_get_no_heater sampleConfig ⟨true, 170, [], false⟩ true
      ⟨CurlBuffer.empty, some lit_ON, []⟩ (Or.inr (by decide))).1,
    (requestStatus_failed_get_no_heater sampleConfig ⟨true, 170, [], false⟩ true
      ⟨CurlBuffer.empty, some lit_ON, []⟩ (Or.inr (by decide))).2.1⟩

/-! ## The publish request -/

/-- C9 (the code at a temperature source that cannot be opened): `fopen`
returns NULL and `publishMeasurement` passes it to `fseek`; the run ends in
undefined behaviour, no request is made, and the cycle does not go on to
`requestStatus`. -/
theorem publishMeasurement_unopened_faults :
    (∀ (cfg : Config) (env : CurlEnv) (s : State),
        publishMeasurement cfg none env s
          = Res.fault ⟨s.chunk, s.sink, s.trace ++ [Event.sensorOpen]⟩)
    ∧ (∀ (cfg : Config) (post get : CurlEnv) (sinkOpens : Bool) (rest : List CycleInput)
        (s : State),
        controlLoop cfg (⟨none, post, get, sinkOpens⟩ :: rest) s
          = Res.fault ⟨s.chunk, s.sink, s.trace ++ [Event.sensorOpen]⟩) := by
  constructor
  · intro cfg env s
    rfl
  · intro cfg post get sinkOpens rest s
    rfl

/-! ## The request configuration -/

/-- C6 (amended): every request that `doCurlAction` configures has the
accumulation callback exactly when the verb is "GET"; it carries the supplied
body exactly when `hasVerb` is set, and follows redirects exactly when
`hasVerb` is not set. Called as at every call site, with `hasVerb` set exactly
for the verbs other than "GET", a GET request has the callback, no body and
redirect following, and a request with another verb has the supplied body, no
callback and no redirect following. -/
theorem doCurlAction_configuration (cfg : Config) (env : CurlEnv)
    (url : Option (List Byte)) (message : CharPtr) (type : String) (hasVerb : Bool)
    (s : State) (hinit : env.initOk = true) :
    ∃ r, requestsOf (doCurlAction cfg env url message type hasVerb s).2.trace
        = requestsOf s.trace ++ [r]
      ∧ r.url = url ∧ r.verb = type
      ∧ r.accumulate = decide (type = "GET")
      ∧ r.postfields = (if hasVerb then some message else none)
      ∧ r.followLocation = !hasVerb
      ∧ (hasVerb = !decide (type = "GET") →
          r.postfields = (if type = "GET" then none else some message)
          ∧ r.followLocation = decide (type = "GET")) := by
  refine ⟨configure url message type hasVerb, ?_, rfl, rfl, rfl, rfl, ?_, ?_⟩
  · rw [doCurlAction_state]
    simp [hinit, requestsOf_append, requestsOf]
  · cases hasVerb <;> simp [configure]
  · intro h
    subst h
    by_cases hg : type = "GET" <;> simp [configure, hg]

/-- C6 (amended) at a POST with the body "B", called with `hasVerb` set. -/
theorem doCurlAction_configuration_witness :
    ∃ r, requestsOf (doCurlAction sampleConfig (okTransfer []) (some [47, 120])
          (CharPtr.heap [66, 0]) "POST" true freshState).2.trace = [r]
      ∧ r.accumulate = false ∧ r.postfields = some (CharPtr.heap [66, 0])
      ∧ r.followLocation = false := by
  obtain ⟨r, h1, _, _, h4, _, _, h7⟩ := doCurlAction_configuration sampleConfig
    (okTransfer []) (some [47, 120]) (CharPtr.heap [66, 0]) "POST" true freshState rfl
  obtain ⟨h8, h9⟩ := h7 (by decide)
  refine ⟨r, h1, ?_, ?_, ?_⟩
  · rw [h4]; decide
  · rw [h8]; decide
  · rw [h9]; decide

/-- C6 as stated fails: the POST of `publishMeasurement` does not follow
redirects, the GET of `requestStatus` does. -/
theorem doCurlAction_claim_counterexample :
    (requestsOf (publishMeasurement sampleConfig (some [55]) (okTransfer [])
        freshState).state.trace).map (fun r => (r.verb, r.followLocation))
      = [("POST", false)]
    ∧ (requestsOf (requestStatus sampleConfig (okTransfer [lit_true]) true
        freshState).state.trace).map (fun r => (r.verb, r.followLocation))
      = [("GET", true)] := by
  decide

/-! ## The argp parser -/

/-- C5 (amended): for every argument struct, (a) when the POST flag is set and
the parser is told that no positional argument was given (ARGP_KEY_NO_ARGS),
and (b) when the url is absent at the end of the arguments (ARGP_KEY_END),
whatever the verb flags are, the parser makes no call of `doCurlAction` (the
program state is as before) and calls `argp_usage`; under the flags that
`main` passes to `argp_parse` the process ends there with the exit status
`argp_err_exit_status`, whatever was to follow. -/
theorem parser_usage_exit (cfg : Config) (env : CurlEnv) (arg : Option (List Byte))
    (arg_num : Nat) (a : Arguments) (s : State) :
    (a.post = true →
        (parser cfg env Key.ARGP_KEY_NO_ARGS arg arg_num a s).usage = true
        ∧ (parser cfg env Key.ARGP_KEY_NO_ARGS arg arg_num a s).state = s
        ∧ ∀ k, afterCall (parser cfg env Key.ARGP_KEY_NO_ARGS arg arg_num a s) k
            = Res.exited argp_err_exit_status s)
    ∧ (a.url = none →
        (parser cfg env Key.ARGP_KEY_END arg arg_num a s).usage = true
        ∧ (parser cfg env Key.ARGP_KEY_END arg arg_num a s).state = s
        ∧ ∀ k, afterCall (parser cfg env Key.ARGP_KEY_END arg arg_num a s) k
            = Res.exited argp_err_exit_status s) := by
  constructor
  · intro h
    simp [parser, afterCall, h]
  · intro h
    simp [parser, afterCall, h]

/-- C5 (amended) at a POST without a body and at a GET without a url. -/
theorem parser_usage_exit_witness :
    (parser sampleConfig (okTransfer []) Key.ARGP_KEY_NO_ARGS none 0
        ⟨some [47, 120], none, true, false, false, false⟩ freshState).state = freshState
    ∧ (parser sampleConfig (okTransfer []) Key.ARGP_KEY_END none 0
        ⟨none, none, false, true, false, false⟩ freshState).state = freshState :=
  ⟨((parser_usage_exit sampleConfig (okTransfer []) none 0
      ⟨some [47, 120], none, true, false, false, false⟩ freshState).1 rfl).2.1,
    ((parser_usage_exit sampleConfig (okTransfer []) none 0
      ⟨none, none, false, true, false, false⟩ freshState).2 rfl).2.1⟩

/-- C5 as stated fails: for the command lines "-u /x -o" (POST, no body) and
"-g" (no url) the parser does not return REQ_ERR to `argp_parse`: the process
ends inside `argp_usage` with the exit status 64, which is not REQ_ERR; no
request is made. -/
theorem parser_claim_counterexample :
    main sampleConfig
        (Invocation.cli [⟨Key.u, some [47, 120]⟩, ⟨Key.o, none⟩] (okTransfer []))
        true (some []) []
      = Res.exited 64 freshState
    ∧ main sampleConfig (Invocation.cli [⟨Key.g, none⟩] (okTransfer [])) true (some []) []
      = Res.exited 64 freshState
    ∧ sampleConfig.REQ_ERR ≠ 64 := by
  decide

/-- Support for C5 (amended) at the level of a run: a command line with the POST flag
and no positional argument, and a command line without a url, are refused by
`argp_parse` with the program state untouched, so that no request is made. -/
theorem argp_parse_refuses (cfg : Config) (env : CurlEnv) (items : List ArgvItem)
    (s : State) (hitems : ∀ it ∈ items, it.key.isItem = true)
    (h : ((∃ it ∈ items, it.key = Key.o) ∧ ∀ it ∈ items, it.key ≠ Key.ARGP_KEY_ARG)
      ∨ ∀ it ∈ items, it.key ≠ Key.u) :
    Rejected s (argp_parse cfg env items ⟨none, none, false, false, false, false⟩ s) := by
  rcases h with ⟨ho, hna⟩ | hnu
  · exact argpItems_post_no_body cfg env items _ s (fun it hit => ⟨hitems it hit, hna it hit⟩)
      (Or.inr ho)
  · exact argpItems_url_absent cfg env items 0 _ s (fun it hit => ⟨hitems it hit, hnu it hit⟩)
      rfl

/-- Support for C4: the start-up of an ad-hoc POST makes exactly the call
`doCurlAction(url, arg, "POST", true)` (OK is 0, as glibc expects). -/
theorem adhoc_post_request (cfg : Config) (env : CurlEnv) (U B : List Byte) (s : State)
    (hok : cfg.OK = 0) :
    startup cfg (Invocation.cli
        [⟨Key.u, some U⟩, ⟨Key.o, none⟩, ⟨Key.ARGP_KEY_ARG, some B⟩] env) s
      = Res.ret () (doCurlAction cfg env (some U) (CharPtr.heap (cblock B)) "POST" true s).2 := by
  simp [startup, argp_parse, argpItems, argpFinish, afterCall, parser, hok, Res.bind,
    CharPtr.ofArg]

/-- Support for C4: the start-up of an ad-hoc GET makes exactly the call
`doCurlAction(url, NULL, "GET", false)` (OK is 0, as glibc expects). -/
theorem adhoc_get_request (cfg : Config) (env : CurlEnv) (U : List Byte) (s : State)
    (hok : cfg.OK = 0) :
    startup cfg (Invocation.cli [⟨Key.u, some U⟩, ⟨Key.g, none⟩] env) s
      = Res.ret () (doCurlAction cfg env (some U) CharPtr.null "GET" false s).2 := by
  simp [startup, argp_parse, argpItems, argpFinish, afterCall, parser, hok, Res.bind]

/-! ## Missing local files -/

/-- C8: when the temperature source or the actuator file does not exist as the
program starts, the loop is never entered: `main` ends in the state the
start-up left, with the actuator file as it was, no opening of the
temperature source and no `setHeater` call (in a daemon run no request
either), and when the start-up reaches `execute` the process ends with the
exit code NO_FILE. (NO_FILE differs from OK in `thermostat.h`.) -/
theorem main_missing_interface (cfg : Config) (inv : Invocation) (tempExists : Bool)
    (sink : Option (List Byte)) (cycles : List CycleInput)
    (hmiss : tempExists = false ∨ sink = none)
    (hcode : cfg.NO_FILE ≠ cfg.OK) :
    (main cfg inv tempExists sink cycles).state
        = (startup cfg inv ⟨CurlBuffer.empty, sink, []⟩).state
      ∧ (main cfg inv tempExists sink cycles).state.sink = sink
      ∧ sensorOpensOf (main cfg inv tempExists sink cycles).state.trace = 0
      ∧ heaterCallsOf (main cfg inv tempExists sink cycles).state.trace = []
      ∧ (∀ d, inv = Invocation.daemon d →
          (main cfg inv tempExists sink cycles).state.trace = [])
      ∧ (∀ s, startup cfg inv ⟨CurlBuffer.empty, sink, []⟩ = Res.ret () s →
          main cfg inv tempExists sink cycles = Res.exited cfg.NO_FILE s) := by
  have hloc := startup_onlyRequests cfg inv ⟨CurlBuffer.empty, sink, []⟩
  have hret : ∀ s, startup cfg inv ⟨CurlBuffer.empty, sink, []⟩ = Res.ret () s →
      main cfg inv tempExists sink cycles = Res.exited cfg.NO_FILE s := by
    intro s hstart
    rw [hstart] at hloc
    have h1 : s.sink = sink := hloc.1
    have hcond : (tempExists && s.sink.isSome) = false := by
      rcases hmiss with h | h
      · simp [h]
      · simp [h1, h]
    simp [main, hstart, Res.bind, engine, execute, hcond, hcode]
  have hstate : (main cfg inv tempExists sink cycles).state
      = (startup cfg inv ⟨CurlBuffer.empty, sink, []⟩).state := by
    cases hs : startup cfg inv ⟨CurlBuffer.empty, sink, []⟩ with
    | ret u s => rw [hret s hs]; rfl
    | fault s => simp [main, hs, Res.bind, Res.state]
    | exited code s => simp [main, hs, Res.bind, Res.state]
    | looping s => simp [main, hs, Res.bind, Res.state]
  refine ⟨hstate, ?_, ?_, ?_, ?_, hret⟩
  · rw [hstate]; exact hloc.1
  · rw [hstate]; exact hloc.2.1
  · rw [hstate]; exact hloc.2.2
  · intro d hd
    subst hd
    rw [hstate, startup_daemon_state]

/-- C8 at a daemon start without the temperature source. -/
theorem main_missing_interface_witness :
    main sampleConfig (Invocation.daemon ⟨0, 0, 0⟩) false (some [])
        [⟨some [55], okTransfer [], okTransfer [lit_true], true⟩]
      = Res.exited 6 freshState :=
  (main_missing_interface sampleConfig (Invocation.daemon ⟨0, 0, 0⟩) false (some [])
    [⟨some [55], okTransfer [], okTransfer [lit_true], true⟩]
    (Or.inl rfl) (by decide)).2.2.2.2.2 freshState (by decide)

/-! ## Ad-hoc runs and the shared buffer -/

/-- C4 (the code at an ad-hoc POST with both local files present): after the
one ad-hoc request `main` goes on to `execute` and enters the loop: the run
opens the temperature source, publishes, fetches the status and calls
`setHeater`. -/
theorem adhoc_run_enters_loop :
    main sampleConfig
        (Invocation.cli [⟨Key.u, some [47, 120]⟩, ⟨Key.o, none⟩,
          ⟨Key.ARGP_KEY_ARG, some [66]⟩] (okTransfer []))
        true (some []) [⟨some [55], okTransfer [], okTransfer [lit_true], true⟩]
      = Res.looping ⟨CurlBuffer.empty, some lit_ON,
          [Event.request ⟨some [47, 120], "POST", false, some (CharPtr.heap [66, 0]), false⟩,
            Event.sensorOpen,
            Event.request (publishRequest sampleConfig [55]),
            Event.request (statusRequest sampleConfig),
            Event.heater lit_ON]⟩ := by
  decide

/-- C7 (the code at an ad-hoc GET with both local files present): the body
"x" of the ad-hoc response is still in `chunk` when the first cycle of the
loop begins, and the status body "true" of that cycle is compared as "xtrue":
`setHeater` is called with "OFF". -/
theorem adhoc_get_leaves_chunk :
    startup sampleConfig
        (Invocation.cli [⟨Key.u, some [47, 120]⟩, ⟨Key.g, none⟩] (okTransfer [[120]]))
        freshState
      = Res.ret () ⟨⟨some [120, 0], 1⟩, some [],
          [Event.request ⟨some [47, 120], "GET", true, none, true⟩]⟩
    ∧ heaterCallsOf (main sampleConfig
        (Invocation.cli [⟨Key.u, some [47, 120]⟩, ⟨Key.g, none⟩] (okTransfer [[120]]))
        true (some []) [⟨some [55], okTransfer [], okTransfer [lit_true], true⟩]).state.trace
      = [lit_OFF] := by
  decide

/-- Support for C7: in a cycle that starts with the buffer empty, the buffer is
empty when the status request begins and empty again when the cycle ends, and
so it stays from cycle to cycle; a daemon run starts its first cycle with the
buffer empty. -/
theorem cycle_buffer_empty (cfg : Config) :
    (∀ (c : CycleInput) (s s1 : State), s.chunk = CurlBuffer.empty →
        publishMeasurement cfg c.sensor c.post s = Res.ret () s1 →
        s1.chunk = CurlBuffer.empty
        ∧ ∀ s2, requestStatus cfg c.get c.sinkOpens s1 = Res.ret () s2 →
            s2.chunk = CurlBuffer.empty)
    ∧ (∀ (cycles : List CycleInput) (s s2 : State), s.chunk = CurlBuffer.empty →
        controlLoop cfg cycles s = Res.looping s2 → s2.chunk = CurlBuffer.empty)
    ∧ (∀ (d : DaemonEnv) (s s1 : State), s.chunk = CurlBuffer.empty →
        startup cfg (Invocation.daemon d) s = Res.ret () s1 →
        s1.chunk = CurlBuffer.empty) := by
  refine ⟨?_, ?_, ?_⟩
  · intro c s s1 hs hp
    have h1 := publishMeasurement_chunk cfg c.sensor c.post s
    rw [hp] at h1
    simp only [Res.state] at h1
    exact ⟨h1.trans hs, fun s2 h2 => requestStatus_resets cfg c.get c.sinkOpens s1 s2 h2⟩
  · intro cycles s s2 hs h
    exact controlLoop_chunk cfg cycles s s2 hs h
  · intro d s s1 hs h
    have hd := startup_daemon_state cfg d s
    rw [h] at hd
    simp only [Res.state] at hd
    rw [hd]
    exact hs

end Thermostat
